import Mathlib

/-!
# Verification of the Cecilia-MIS NT-LEWD scoring engine

A shallow embedding, in Lean 4, of the scoring engine implemented in
`lewd_scoring.py`: configuration resolution, the four scoring axes
(piecewise volume/growth scaling, payer classification, desperation
estimation), weighted aggregation, the enrichment-CSV loader, and the
ranking/preview step.

Modelling conventions:
* Python (finite) float values are modelled as rationals `ℚ`; the scoring
  arithmetic performed by the program on the inputs exercised here is exact,
  so no rounding gap arises.  IEEE specials (`nan`/`inf`) are outside the
  numeric model.
* Python exceptions are modelled with `Option`/`Except`: a `none`/`.error`
  result marks a raised exception.
* Python `dict`s are modelled as insertion-ordered association lists with
  `pyDictInsert` implementing `d[k] = v` (replace in place, else append),
  so keys stay unique exactly as in a real `dict`.
* Strings are manipulated through their character lists with bespoke
  executable helpers (`lowerStr`, `stripStr`, `containsStr`) mirroring
  Python's `str.lower`, `str.strip` and the `in` substring test.
-/

namespace Cecilia

/-- A Python value as it may appear in an input record cell: a string, an
`int`, a (finite) `float`, or `None`. -/
inductive PyVal where
  | vStr (s : String)
  | vInt (n : ℤ)
  | vFloat (q : ℚ)
  | vNone
deriving DecidableEq, Repr

/-- A value stored in an enrichment map by `load_optional_csv`: the result of
the int-then-float-then-string coercion chain. -/
inductive EnrichVal where
  | eInt (n : ℤ)
  | eFloat (q : ℚ)
  | eStr (s : String)
deriving DecidableEq, Repr

/-! ## String helpers (executable models of the Python builtins used) -/

/-- Python `str.lower()` on the ASCII range (all inputs of interest). -/
def lowerStr (s : String) : String := ⟨s.data.map Char.toLower⟩

/-- Drop leading whitespace characters. -/
def dropLeadWs (cs : List Char) : List Char :=
  cs.dropWhile Char.isWhitespace

/-- Python `str.strip()`: remove leading and trailing whitespace. -/
def stripStr (s : String) : String :=
  ⟨(dropLeadWs ((dropLeadWs s.data.reverse).reverse))⟩

/-- Whether `needle` is a leading segment of `hay`. -/
def hasPrefixSeq : List Char → List Char → Bool
  | _, [] => true
  | [], _ :: _ => false
  | c :: cs, d :: ds => c = d && hasPrefixSeq cs ds

/-- Whether `needle` occurs contiguously inside `hay`. -/
def containsSeq : List Char → List Char → Bool
  | [], needle => hasPrefixSeq [] needle
  | c :: cs, needle => hasPrefixSeq (c :: cs) needle || containsSeq cs needle

/-- Python's substring test `needle in hay`. -/
def containsStr (hay needle : String) : Bool :=
  containsSeq hay.data needle.data

/-! ## Numeric literal parsing (models of `int(s)` and `float(s)`) -/

/-- Value of a digit run (most significant first). -/
def digitsVal (cs : List Char) : ℕ :=
  cs.foldl (fun a c => a * 10 + (c.toNat - 48)) 0

/-- A non-empty run of ASCII digits. -/
def allDigits (cs : List Char) : Bool :=
  !cs.isEmpty && cs.all Char.isDigit

/-- Split off an optional leading `+`/`-` sign. -/
def splitSign : List Char → (Bool × List Char)
  | '-' :: rest => (true, rest)
  | '+' :: rest => (false, rest)
  | cs => (false, cs)

/-- Model of Python `int(s)` on decimal literals: optional surrounding
whitespace, optional sign, then a non-empty digit run (digit-group
underscores are not modelled; no claim exercises them). -/
def parsePyInt (s : String) : Option ℤ :=
  let (neg, ds) := splitSign (stripStr s).data
  if allDigits ds then
    some (if neg then -(digitsVal ds : ℤ) else (digitsVal ds : ℤ))
  else none

/-- Split a character list at the first occurrence of any char in `seps`,
returning the part before and (when a separator was found) the part after. -/
def splitFirst (seps : List Char) : List Char → (List Char × Option (List Char))
  | [] => ([], none)
  | c :: cs =>
    if c ∈ seps then ([], some cs)
    else
      let (pre, post) := splitFirst seps cs
      (c :: pre, post)

/-- Parse the mantissa `digits[.digits]` of a float literal. -/
def parseMantissa (cs : List Char) : Option ℚ :=
  let (ip, fpOpt) := splitFirst ['.'] cs
  match fpOpt with
  | none =>
    if allDigits ip then some ((digitsVal ip : ℚ)) else none
  | some fp =>
    if (ip.all Char.isDigit && fp.all Char.isDigit) && !(ip.isEmpty && fp.isEmpty) then
      some ((digitsVal ip : ℚ) + (digitsVal fp : ℚ) / 10 ^ fp.length)
    else none

/-- Model of Python `float(s)` on finite decimal literals: optional
surrounding whitespace, optional sign, `digits[.digits]`, optional exponent.
The IEEE specials (`"nan"`, `"inf"`, ...) are outside the numeric model, so
this parser rejects them. -/
def parsePyFloat (s : String) : Option ℚ :=
  let (neg, body) := splitSign (stripStr s).data
  let (mant, expOpt) := splitFirst ['e', 'E'] body
  let mantVal := parseMantissa mant
  let expVal : Option ℤ :=
    match expOpt with
    | none => some 0
    | some ecs =>
      let (eneg, eds) := splitSign ecs
      if allDigits eds then
        some (if eneg then -(digitsVal eds : ℤ) else (digitsVal eds : ℤ))
      else none
  match mantVal, expVal with
  | some m, some e =>
    let v := m * (10 : ℚ) ^ e
    some (if neg then -v else v)
  | _, _ => none

/-! ## Python value coercions used by `score_row` -/

/-- Python truthiness of a record cell (`bool(x)`). -/
def pyTruthy : PyVal → Bool
  | .vStr s => s ≠ ""
  | .vInt n => n ≠ 0
  | .vFloat q => q ≠ 0
  | .vNone => false

/-- Python `float(x)` on a record cell; `none` models a raised
`ValueError`/`TypeError`. -/
def pyFloatVal : PyVal → Option ℚ
  | .vStr s => parsePyFloat s
  | .vInt n => some (n : ℚ)
  | .vFloat q => some q
  | .vNone => none

/-- Rendering of a float by `str()`.  Integral values render as in Python
(`12.0`); non-integral values render as a digit/slash form which — exactly
like Python's decimal rendering — can never collide with a payer-category
key, the only use this function is put to.  No claim exercises this case. -/
def pyFloatRepr (q : ℚ) : String :=
  if q.den = 1 then toString q.num ++ ".0" else toString q.num ++ "/" ++ toString q.den

/-- Python `str(x)` on a record cell. -/
def pyStr : PyVal → String
  | .vStr s => s
  | .vInt n => toString n
  | .vFloat q => pyFloatRepr q
  | .vNone => "None"

/-- View an enrichment value as the Python object it is. -/
def enrichToPyVal : EnrichVal → PyVal
  | .eInt n => .vInt n
  | .eFloat q => .vFloat q
  | .eStr s => .vStr s

/-- Python `float(x)` on an enrichment value; `none` models a raised
exception. -/
def enrichToFloat (v : EnrichVal) : Option ℚ :=
  pyFloatVal (enrichToPyVal v)

/-! ## Python dict model -/

/-- First-match lookup in an association list; on a list with unique keys
(as produced by `pyDictInsert`) this is exactly Python `d.get(k)`. -/
def lookupKey {α : Type} : List (String × α) → String → Option α
  | [], _ => none
  | (k, v) :: rest, key => if key = k then some v else lookupKey rest key

/-- Python `d.get(k, dflt)`. -/
def lookupKeyD {α : Type} (l : List (String × α)) (key : String) (dflt : α) : α :=
  (lookupKey l key).getD dflt

/-- Python `d[k] = v`: replace the value in place if the key exists,
otherwise append a new entry. -/
def pyDictInsert {α : Type} : List (String × α) → String → α → List (String × α)
  | [], k, v => [(k, v)]
  | (k', v') :: rest, k, v =>
    if k' = k then (k, v) :: rest else (k', v') :: pyDictInsert rest k v

/-- Python `base.update(upd)` / `{**base, **upd}`. -/
def pyDictUpdate {α : Type} (base upd : List (String × α)) : List (String × α) :=
  upd.foldl (fun acc p => pyDictInsert acc p.1 p.2) base

/-! ## Configuration data model (typed view of the config dict read by
`score_row`; each `Option` field mirrors a `.get(key, default)` in the
source) -/

/-- A `{low, mid, high}` calibration mapping; a missing key mirrors
`thresholds.get("low", 0.0)` / `.get("mid", low)` / `.get("high", mid)`. -/
structure AxisThresholds where
  low : Option ℚ
  mid : Option ℚ
  high : Option ℚ
deriving DecidableEq, Repr

/-- Resolution `low = thresholds.get("low", 0.0)`. -/
def thLow (th : AxisThresholds) : ℚ := th.low.getD 0

/-- Resolution `mid = thresholds.get("mid", low)`. -/
def thMid (th : AxisThresholds) : ℚ := th.mid.getD (thLow th)

/-- Resolution `high = thresholds.get("high", mid)`. -/
def thHigh (th : AxisThresholds) : ℚ := th.high.getD (thMid th)

/-- One desperation bin `{max, score}`; `max := none` mirrors
`bucket.get("max", float("inf"))` (matches every count), `score := none`
mirrors a bin without a `"score"` key (`bucket.get("score", 0)` in the scan,
a `KeyError` in the `bins[-1]["score"]` fallback). -/
structure Bin where
  max : Option ℚ
  score : Option ℚ
deriving DecidableEq, Repr

/-- The `desperate` axis configuration: `bins` mirrors
`desperate_cfg.get("bins", [])`, `heuristics_keywords` mirrors
`desperate_cfg.get("heuristics_keywords", [])`. -/
structure DesperateCfg where
  bins : Option (List Bin)
  heuristics_keywords : Option (List String)
deriving DecidableEq, Repr

/-- The `who_pays` axis configuration: `map` mirrors `.get("map", {})`,
`unknown_default` mirrors `.get("unknown_default", 8)`. -/
structure WhoPaysCfg where
  map : Option (List (String × ℚ))
  unknown_default : Option ℚ
deriving DecidableEq, Repr

/-- The `thresholds` section; each axis field mirrors
`thresholds.get(axis, {})`. -/
structure Thresholds where
  large : Option AxisThresholds
  early : Option AxisThresholds
  who_pays : Option WhoPaysCfg
  desperate : Option DesperateCfg
deriving DecidableEq, Repr

/-- The configuration consumed by `score_row` (`cfg["weights"]`,
`cfg["thresholds"]`). -/
structure Config where
  weights : List (String × ℚ)
  thresholds : Thresholds
deriving DecidableEq, Repr

/-- The source's `DEFAULT_CONFIG["weights"]`. -/
def defaultWeights : List (String × ℚ) :=
  [("large", 1/4), ("early", 1/4), ("who_pays", 1/4), ("desperate", 1/4)]

/-- The source's `DEFAULT_CONFIG["thresholds"]["who_pays"]["map"]`. -/
def defaultWhoPaysMap : List (String × ℚ) :=
  [("student", 10), ("job_seeker", 15), ("creator", 18),
   ("freelancer", 20), ("SME", 23), ("enterprise", 25)]

/-- The source's `DEFAULT_CONFIG["thresholds"]["desperate"]["bins"]`. -/
def defaultBins : List Bin :=
  [⟨some 0, some 4⟩, ⟨some 3, some 10⟩, ⟨some 10, some 17⟩,
   ⟨some 30, some 22⟩, ⟨some 1000000000, some 25⟩]

/-- The source's `DEFAULT_CONFIG["thresholds"]["desperate"]["heuristics_keywords"]`. -/
def defaultHeuristics : List String :=
  ["need", "urgent", "stuck", "broken", "fail"]

/-- The source's `DEFAULT_CONFIG`, as the typed configuration consumed by `score_row`. -/
def defaultConfig : Config :=
  { weights := defaultWeights
    thresholds :=
      { large := some ⟨some 10, some 30, some 60⟩
        early := some ⟨some 0, some 40, some 80⟩
        who_pays := some ⟨some defaultWhoPaysMap, some 8⟩
        desperate := some ⟨some defaultBins, some defaultHeuristics⟩ } }

/-! ## `_piecewise_scale` -/

/-- Translation of `_piecewise_scale(value, thresholds)` (`lewd_scoring.py` lines 198-213):
the four-branch piecewise map onto `[0, 25]`, with spans guarded by
`max(span, 1e-9)`. -/
def piecewiseScale (value : ℚ) (th : AxisThresholds) : ℚ :=
  let low := thLow th
  let mid := thMid th
  let high := thHigh th
  if value ≤ low then 0
  else if high ≤ value then 25
  else if value ≤ mid then
    (value - low) / (max (mid - low) (1 / 1000000000)) * (25 / 2)
  else
    25 / 2 + (value - mid) / (max (high - mid) (1 / 1000000000)) * (25 / 2)

/-! ## `_score_desperate` -/

/-- The test `pain_mentions <= bucket.get("max", float("inf"))`: a bin with no `max`
behaves as `+∞` and matches every count. -/
def binMatches (pain : ℚ) (b : Bin) : Bool :=
  match b.max with
  | none => true
  | some m => pain ≤ m

/-- The loop `for bucket in bins: if pain_mentions <= bucket.get("max",
float("inf")): return float(bucket.get("score", 0))`: score of the first
matching bin. -/
def scanBins (pain : ℚ) : List Bin → Option ℚ
  | [] => none
  | b :: rest =>
    if binMatches pain b then some (b.score.getD 0) else scanBins pain rest

/-- The heuristic loop: `score = 7.0`, then `score += 3` for each lowered
token that is a non-empty substring of the lowered keyword. -/
def heuristicScore (keywordLower : String) (tokens : List String) : ℚ :=
  (tokens.map lowerStr).foldl
    (fun score t => if t ≠ "" ∧ containsStr keywordLower t then score + 3 else score)
    (7 : ℚ)

/-- Translation of `_score_desperate(keyword, pain_mentions, desperate_cfg)`
(`lewd_scoring.py` lines 216-237).  `none` models the `KeyError` raised by
the `bins[-1]["score"]` fallback when the last bin has no score. -/
def scoreDesperate (keyword : String) (painMentions : Option ℚ)
    (cfg : DesperateCfg) : Option ℚ :=
  let bins := cfg.bins.getD []
  let heuristics := cfg.heuristics_keywords.getD []
  match painMentions with
  | some pain =>
    match scanBins pain bins with
    | some s => some s
    | none =>
      match bins.getLast? with
      | some b => b.score
      | none => some 0
  | none => some (min (heuristicScore (lowerStr keyword) heuristics) 25)

/-! ## `score_row` -/

/-- An input record, restricted to the four cells the engine reads
(`keyword`, `avg_volume`, `growth_pct`, `buyer`); `none` marks an absent
column.  All other columns are passed through unchanged and play no role in
scoring. -/
structure Row where
  keyword : Option PyVal
  avg_volume : Option PyVal
  growth_pct : Option PyVal
  buyer : Option PyVal
deriving DecidableEq, Repr

/-- The scoring output for a single trend row (`ScoreResult`). -/
structure ScoreResult where
  row : Row
  large : ℚ
  early : ℚ
  who_pays : ℚ
  desperate : ℚ
  total : ℤ
deriving DecidableEq, Repr

/-- Coercion `float(row.get(field, 0) or 0)`: an absent or falsy cell coerces to `0`;
`none` models the `ValueError` raised by `float` on a truthy non-numeric
string. -/
def coerceNumericField (cell : Option PyVal) : Option ℚ :=
  let x := cell.getD (.vInt 0)
  pyFloatVal (if pyTruthy x then x else .vInt 0)

/-- Extraction `keyword = str(row.get("keyword", "")).strip()`. -/
def rowKeyword (row : Row) : String :=
  stripStr (pyStr (row.keyword.getD (.vStr "")))

/-- Python `int(round(x))` on a (finite) float: round-half-to-even. -/
def pyRound (q : ℚ) : ℤ :=
  let f := ⌊q⌋
  let r := q - (f : ℚ)
  if r < 1/2 then f
  else if 1/2 < r then f + 1
  else if f % 2 = 0 then f else f + 1

/-- Normalizer `total_weight = sum(float(w) for w in weights.values()) or 1.0`. -/
def totalWeight (weights : List (String × ℚ)) : ℚ :=
  let s := (weights.map (·.2)).sum
  if s = 0 then 1 else s

/-- The weighted aggregation of `score_row` (`lewd_scoring.py` lines
275-283): weighted sum over the four axes, normalized by `totalWeight`,
scaled by 4 and rounded. -/
def aggregateTotal (large early who_pays desperate : ℚ)
    (weights : List (String × ℚ)) : ℤ :=
  let weighted_sum :=
    large * lookupKeyD weights "large" 0
    + early * lookupKeyD weights "early" 0
    + who_pays * lookupKeyD weights "who_pays" 0
    + desperate * lookupKeyD weights "desperate" 0
  pyRound (weighted_sum / totalWeight weights * 4)

/-- The comprehension `{str(k).strip().lower(): v for k, v in map.items()}`: the lowered payer
lookup table (dict comprehension, later duplicates overwrite). -/
def buyerLookupTable (m : List (String × ℚ)) : List (String × ℚ) :=
  m.foldl (fun acc p => pyDictInsert acc (lowerStr (stripStr p.1)) p.2) []

/-- Lines 258-262 of `lewd_scoring.py`: resolve the payer category from the
enrichment map (when the keyword is non-empty and the entry is not `None` or
`""`), falling back to the record's own `buyer` cell, and look the lowered,
stripped category string up in the payer table, defaulting to
`unknown_default`. -/
def resolveBuyerScore (keyword : String) (row : Row)
    (buyerMap : List (String × EnrichVal)) (wp : WhoPaysCfg) : ℚ :=
  let table := buyerLookupTable (wp.map.getD [])
  let fromMap : Option EnrichVal :=
    if keyword ≠ "" then lookupKey buyerMap (lowerStr keyword) else none
  let buyer : PyVal :=
    match fromMap with
    | some ev => if ev = .eStr "" then row.buyer.getD .vNone else enrichToPyVal ev
    | none => row.buyer.getD .vNone
  lookupKeyD table (lowerStr (stripStr (pyStr buyer))) (wp.unknown_default.getD 8)

/-- Lines 264-271 of `lewd_scoring.py`: the pain count for a record, `none`
when the keyword is empty, the enrichment entry is absent, is `None` or
`""`, or fails `float()` (the `try/except` swallows the error). -/
def resolvePain (keyword : String) (painMap : List (String × EnrichVal)) : Option ℚ :=
  if keyword ≠ "" then
    match lookupKey painMap (lowerStr keyword) with
    | none => none
    | some raw => if raw = .eStr "" then none else enrichToFloat raw
  else none

/-- Translation of `score_row(row, cfg, pain_map, buyer_map)` (`lewd_scoring.py` lines
240-292).  `none` models a raised exception (numeric coercion of
`avg_volume`/`growth_pct`, or the desperation `KeyError`). -/
def scoreRow (row : Row) (cfg : Config)
    (painMap buyerMap : List (String × EnrichVal)) : Option ScoreResult :=
  match coerceNumericField row.avg_volume, coerceNumericField row.growth_pct with
  | some avgVolume, some growthPct =>
    let keyword := rowKeyword row
    let largeScore := piecewiseScale avgVolume (cfg.thresholds.large.getD ⟨none, none, none⟩)
    let earlyScore := piecewiseScale growthPct (cfg.thresholds.early.getD ⟨none, none, none⟩)
    let buyerScore := resolveBuyerScore keyword row buyerMap
      (cfg.thresholds.who_pays.getD ⟨none, none⟩)
    let painMentions := resolvePain keyword painMap
    match scoreDesperate keyword painMentions (cfg.thresholds.desperate.getD ⟨none, none⟩) with
    | some desperateScore =>
      some
        { row := row
          large := largeScore
          early := earlyScore
          who_pays := buyerScore
          desperate := desperateScore
          total := aggregateTotal largeScore earlyScore buyerScore desperateScore cfg.weights }
    | none => none
  | _, _ => none

/-! ## Helper lemmas -/

/-- The heuristic fold counts matching tokens: base 7 plus 3 per lowered,
non-empty token occurring in the keyword. -/
theorem heuristicScore_eq_count (kw : String) (tokens : List String) :
    heuristicScore kw tokens =
      7 + 3 * (((tokens.map lowerStr).filter
        (fun t => t ≠ "" && containsStr kw t)).length : ℚ) := by
  have main : ∀ (l : List String) (init : ℚ),
      l.foldl (fun score t => if t ≠ "" ∧ containsStr kw t then score + 3 else score) init
        = init + 3 * ((l.filter (fun t => t ≠ "" && containsStr kw t)).length : ℚ) := by
    intro l
    induction l with
    | nil => intro init; simp
    | cons t rest ih =>
      intro init
      by_cases h : t ≠ "" ∧ containsStr kw t
      · have hb : (t ≠ "" && containsStr kw t) = true := by simpa using h
        simp only [List.foldl_cons, if_pos h, List.filter_cons, hb, if_true, ih,
          List.length_cons]
        push_cast
        ring
      · have hb : (t ≠ "" && containsStr kw t) = false := by
          rcases not_and_or.mp h with h1 | h2
          · simp [show t = "" by simpa using h1]
          · simp [show containsStr kw t = false by simpa using h2]
        simp only [List.foldl_cons, if_neg h, List.filter_cons, hb, ih]
        simp
  rw [heuristicScore, main]

/-- Unfolding of `scoreRow` once its three fallible components are known. -/
theorem scoreRow_eq_of_parts (row : Row) (cfg : Config)
    (pm bm : List (String × EnrichVal)) (a g d : ℚ)
    (ha : coerceNumericField row.avg_volume = some a)
    (hg : coerceNumericField row.growth_pct = some g)
    (hd : scoreDesperate (rowKeyword row) (resolvePain (rowKeyword row) pm)
            (cfg.thresholds.desperate.getD ⟨none, none⟩) = some d) :
    scoreRow row cfg pm bm =
      some { row := row
             large := piecewiseScale a (cfg.thresholds.large.getD ⟨none, none, none⟩)
             early := piecewiseScale g (cfg.thresholds.early.getD ⟨none, none, none⟩)
             who_pays := resolveBuyerScore (rowKeyword row) row bm
               (cfg.thresholds.who_pays.getD ⟨none, none⟩)
             desperate := d
             total := aggregateTotal
               (piecewiseScale a (cfg.thresholds.large.getD ⟨none, none, none⟩))
               (piecewiseScale g (cfg.thresholds.early.getD ⟨none, none, none⟩))
               (resolveBuyerScore (rowKeyword row) row bm
                 (cfg.thresholds.who_pays.getD ⟨none, none⟩))
               d cfg.weights } := by
  simp only [scoreRow, ha, hg, hd]

/-! ## Claim C1 -/

/-- The first end-to-end record of the spec: `{keyword: "ai therapy",
avg_volume: 70, growth_pct: 90}`. -/
def rowAiTherapy : Row :=
  { keyword := some (.vStr "ai therapy"), avg_volume := some (.vInt 70)
    growth_pct := some (.vInt 90), buyer := none }

/-- The second end-to-end record of the spec: `{keyword: "urgent passport
renewal", avg_volume: 20, growth_pct: 50}`. -/
def rowUrgentPassport : Row :=
  { keyword := some (.vStr "urgent passport renewal"), avg_volume := some (.vInt 20)
    growth_pct := some (.vInt 50), buyer := none }

/-- C1: end-to-end scoring with the default configuration.  The record
`{keyword: "ai therapy", avg_volume: 70, growth_pct: 90}` with pain
enrichment 12 and buyer enrichment `"enterprise"` scores large 25, early 25,
who_pays 25, desperate 22, total 97; the record `{keyword: "urgent passport
renewal", avg_volume: 20, growth_pct: 50}` with no enrichment scores large
6.25, early 15.625, who_pays 8, desperate 10, total 40. -/
theorem claim_C1_end_to_end_default_config :
    scoreRow rowAiTherapy defaultConfig
      [("ai therapy", .eInt 12)] [("ai therapy", .eStr "enterprise")]
    = some { row := rowAiTherapy, large := 25, early := 25, who_pays := 25,
             desperate := 22, total := 97 }
    ∧
    scoreRow rowUrgentPassport defaultConfig [] []
    = some { row := rowUrgentPassport, large := 25/4, early := 125/8, who_pays := 8,
             desperate := 10, total := 40 } := by
  constructor
  · rw [scoreRow_eq_of_parts rowAiTherapy defaultConfig _ _ 70 90 22
      (by decide) (by decide) (by decide)]
    have h1 : piecewiseScale 70 (defaultConfig.thresholds.large.getD ⟨none, none, none⟩) = 25 := by
      norm_num [piecewiseScale, defaultConfig, thLow, thMid, thHigh]
    have h2 : piecewiseScale 90 (defaultConfig.thresholds.early.getD ⟨none, none, none⟩) = 25 := by
      norm_num [piecewiseScale, defaultConfig, thLow, thMid, thHigh]
    have h3 : resolveBuyerScore (rowKeyword rowAiTherapy) rowAiTherapy
        [("ai therapy", .eStr "enterprise")]
        (defaultConfig.thresholds.who_pays.getD ⟨none, none⟩) = 25 := by decide
    rw [h1, h2, h3]
    norm_num [aggregateTotal, lookupKeyD, lookupKey, totalWeight, defaultConfig, defaultWeights,
      pyRound]
  · have hd : scoreDesperate (rowKeyword rowUrgentPassport)
        (resolvePain (rowKeyword rowUrgentPassport) [])
        (defaultConfig.thresholds.desperate.getD ⟨none, none⟩) = some 10 := by
      have hkw : rowKeyword rowUrgentPassport = "urgent passport renewal" := by decide
      have hp : resolvePain "urgent passport renewal" [] = none := by decide
      have hcount : ((defaultHeuristics.map lowerStr).filter
          (fun t => t ≠ "" && containsStr (lowerStr "urgent passport renewal") t)).length
          = 1 := by decide
      rw [hkw, hp]
      simp only [defaultConfig, Option.getD_some, scoreDesperate, heuristicScore_eq_count, hcount]
      norm_num [min_def]
    rw [scoreRow_eq_of_parts rowUrgentPassport defaultConfig _ _ 20 50 10
      (by decide) (by decide) hd]
    have h1 : piecewiseScale 20 (defaultConfig.thresholds.large.getD ⟨none, none, none⟩)
        = 25/4 := by
      norm_num [piecewiseScale, defaultConfig, thLow, thMid, thHigh]
    have h2 : piecewiseScale 50 (defaultConfig.thresholds.early.getD ⟨none, none, none⟩)
        = 125/8 := by
      norm_num [piecewiseScale, defaultConfig, thLow, thMid, thHigh]
    have h3 : resolveBuyerScore (rowKeyword rowUrgentPassport) rowUrgentPassport []
        (defaultConfig.thresholds.who_pays.getD ⟨none, none⟩) = 8 := by decide
    rw [h1, h2, h3]
    norm_num [aggregateTotal, lookupKeyD, lookupKey, totalWeight, defaultConfig, defaultWeights,
      pyRound]

/-! ## Claim C2 -/

/-- The guarded spans of `_piecewise_scale` are positive. -/
theorem span_pos (a b : ℚ) : 0 < max (a - b) (1/1000000000) :=
  lt_max_of_lt_right (by norm_num)

/-- The lower-interpolation branch stays in `[0, 25/2]` on its guard. -/
theorem midBranch_bounds (th : AxisThresholds) {v : ℚ}
    (h1 : ¬ v ≤ thLow th) (h3 : v ≤ thMid th) :
    0 ≤ (v - thLow th) / (max (thMid th - thLow th) (1/1000000000)) * (25/2)
    ∧ (v - thLow th) / (max (thMid th - thLow th) (1/1000000000)) * (25/2) ≤ 25/2 := by
  have hs := span_pos (thMid th) (thLow th)
  have hv : 0 ≤ v - thLow th := by linarith [not_le.mp h1]
  constructor
  · exact mul_nonneg (div_nonneg hv hs.le) (by norm_num)
  · have hr : (v - thLow th) / (max (thMid th - thLow th) (1/1000000000)) ≤ 1 := by
      rw [div_le_one hs]
      exact le_trans (by linarith) (le_max_left _ _)
    calc (v - thLow th) / (max (thMid th - thLow th) (1/1000000000)) * (25/2)
        ≤ 1 * (25/2) := by
          exact mul_le_mul_of_nonneg_right hr (by norm_num)
      _ = 25/2 := by norm_num

/-- The upper-interpolation branch stays in `[25/2, 25]` on its guard. -/
theorem elseBranch_bounds (th : AxisThresholds) {v : ℚ}
    (h2 : ¬ thHigh th ≤ v) (h3 : ¬ v ≤ thMid th) :
    25/2 ≤ 25/2 + (v - thMid th) / (max (thHigh th - thMid th) (1/1000000000)) * (25/2)
    ∧ 25/2 + (v - thMid th) / (max (thHigh th - thMid th) (1/1000000000)) * (25/2) ≤ 25 := by
  have hs := span_pos (thHigh th) (thMid th)
  have hv : 0 ≤ v - thMid th := by linarith [not_le.mp h3]
  constructor
  · have := mul_nonneg (div_nonneg hv hs.le) (show (0:ℚ) ≤ 25/2 by norm_num)
    linarith
  · have hr : (v - thMid th) / (max (thHigh th - thMid th) (1/1000000000)) ≤ 1 := by
      rw [div_le_one hs]
      exact le_trans (by linarith [not_le.mp h2]) (le_max_left _ _)
    have := mul_le_mul_of_nonneg_right hr (show (0:ℚ) ≤ 25/2 by norm_num)
    linarith

/-- Branch equation: at or below `low` the scaler returns 0. -/
theorem piecewiseScale_eq_zero (th : AxisThresholds) {v : ℚ} (h1 : v ≤ thLow th) :
    piecewiseScale v th = 0 := by
  simp [piecewiseScale, h1]

/-- Branch equation: above `low` and at or above `high` the scaler saturates
at 25. -/
theorem piecewiseScale_eq_sat (th : AxisThresholds) {v : ℚ}
    (h1 : ¬ v ≤ thLow th) (h2 : thHigh th ≤ v) :
    piecewiseScale v th = 25 := by
  simp [piecewiseScale, h1, h2]

/-- Branch equation: the lower interpolation branch. -/
theorem piecewiseScale_eq_mid (th : AxisThresholds) {v : ℚ}
    (h1 : ¬ v ≤ thLow th) (h2 : ¬ thHigh th ≤ v) (h3 : v ≤ thMid th) :
    piecewiseScale v th
      = (v - thLow th) / (max (thMid th - thLow th) (1/1000000000)) * (25/2) := by
  simp [piecewiseScale, h1, h2, h3]

/-- Branch equation: the upper interpolation branch. -/
theorem piecewiseScale_eq_else (th : AxisThresholds) {v : ℚ}
    (h1 : ¬ v ≤ thLow th) (h2 : ¬ thHigh th ≤ v) (h3 : ¬ v ≤ thMid th) :
    piecewiseScale v th
      = 25/2 + (v - thMid th) / (max (thHigh th - thMid th) (1/1000000000)) * (25/2) := by
  simp [piecewiseScale, h1, h2, h3]

/-- The scaler `_piecewise_scale` never goes below 0. -/
theorem piecewiseScale_nonneg (v : ℚ) (th : AxisThresholds) :
    0 ≤ piecewiseScale v th := by
  by_cases h1 : v ≤ thLow th
  · rw [piecewiseScale_eq_zero th h1]
  by_cases h2 : thHigh th ≤ v
  · rw [piecewiseScale_eq_sat th h1 h2]; norm_num
  by_cases h3 : v ≤ thMid th
  · rw [piecewiseScale_eq_mid th h1 h2 h3]
    exact (midBranch_bounds th h1 h3).1
  · rw [piecewiseScale_eq_else th h1 h2 h3]
    have := (elseBranch_bounds th h2 h3).1
    linarith

/-- The scaler `_piecewise_scale` never exceeds 25. -/
theorem piecewiseScale_le_25 (v : ℚ) (th : AxisThresholds) :
    piecewiseScale v th ≤ 25 := by
  by_cases h1 : v ≤ thLow th
  · rw [piecewiseScale_eq_zero th h1]; norm_num
  by_cases h2 : thHigh th ≤ v
  · rw [piecewiseScale_eq_sat th h1 h2]
  by_cases h3 : v ≤ thMid th
  · rw [piecewiseScale_eq_mid th h1 h2 h3]
    have := (midBranch_bounds th h1 h3).2
    linarith
  · rw [piecewiseScale_eq_else th h1 h2 h3]
    exact (elseBranch_bounds th h2 h3).2

/-- The scaler `_piecewise_scale` is monotone in `value`, for any thresholds. -/
theorem piecewiseScale_mono (th : AxisThresholds) {v1 v2 : ℚ} (hv : v1 ≤ v2) :
    piecewiseScale v1 th ≤ piecewiseScale v2 th := by
  have hs1 := span_pos (thMid th) (thLow th)
  have hs2 := span_pos (thHigh th) (thMid th)
  by_cases c1 : v1 ≤ thLow th
  · rw [piecewiseScale_eq_zero th c1]
    exact piecewiseScale_nonneg v2 th
  by_cases c2 : thHigh th ≤ v1
  · rw [piecewiseScale_eq_sat th c1 c2,
      piecewiseScale_eq_sat th (fun h => c1 (le_trans hv h)) (le_trans c2 hv)]
  have d1 : ¬ v2 ≤ thLow th := fun h => c1 (le_trans hv h)
  by_cases c3 : v1 ≤ thMid th
  · rw [piecewiseScale_eq_mid th c1 c2 c3]
    by_cases d2 : thHigh th ≤ v2
    · rw [piecewiseScale_eq_sat th d1 d2]
      have := (midBranch_bounds th c1 c3).2
      linarith
    by_cases d3 : v2 ≤ thMid th
    · rw [piecewiseScale_eq_mid th d1 d2 d3]
      exact mul_le_mul_of_nonneg_right
        (div_le_div_of_nonneg_right (by linarith) hs1.le) (by norm_num)
    · rw [piecewiseScale_eq_else th d1 d2 d3]
      have hm := (midBranch_bounds th c1 c3).2
      have he := (elseBranch_bounds th d2 d3).1
      linarith
  · rw [piecewiseScale_eq_else th c1 c2 c3]
    have d3 : ¬ v2 ≤ thMid th := fun h => c3 (le_trans hv h)
    by_cases d2 : thHigh th ≤ v2
    · rw [piecewiseScale_eq_sat th d1 d2]
      exact (elseBranch_bounds th c2 c3).2
    · rw [piecewiseScale_eq_else th d1 d2 d3]
      have := mul_le_mul_of_nonneg_right
        (div_le_div_of_nonneg_right (show v1 - thMid th ≤ v2 - thMid th by linarith) hs2.le)
        (show (0:ℚ) ≤ 25/2 by norm_num)
      linarith

/-- C2: `_piecewise_scale` follows the spec's sequential piecewise shape —
0 at or below `low`, 25 at or above `high`, the two linear interpolations
with spans guarded by epsilon `1e-9` in between (with `mid` defaulting to
`low` and `high` to `mid` when absent, as `thLow`/`thMid`/`thHigh` state) —
is total by construction, and is monotone non-decreasing in `value` for
fixed thresholds. -/
theorem claim_C2_piecewise_scale (th : AxisThresholds) (v v1 v2 : ℚ) :
    (v ≤ thLow th → piecewiseScale v th = 0)
    ∧ (¬ v ≤ thLow th → thHigh th ≤ v → piecewiseScale v th = 25)
    ∧ (¬ v ≤ thLow th → ¬ thHigh th ≤ v → v ≤ thMid th →
        piecewiseScale v th
          = (v - thLow th) / (max (thMid th - thLow th) (1/1000000000)) * (25/2))
    ∧ (¬ v ≤ thLow th → ¬ thHigh th ≤ v → ¬ v ≤ thMid th →
        piecewiseScale v th
          = 25/2 + (v - thMid th) / (max (thHigh th - thMid th) (1/1000000000)) * (25/2))
    ∧ (v1 ≤ v2 → piecewiseScale v1 th ≤ piecewiseScale v2 th) := by
  refine ⟨fun h1 => ?_, fun h1 h2 => ?_, fun h1 h2 h3 => ?_, fun h1 h2 h3 => ?_,
    fun hv => piecewiseScale_mono th hv⟩
  · simp [piecewiseScale, h1]
  · simp [piecewiseScale, h1, h2]
  · simp [piecewiseScale, h1, h2, h3]
  · simp [piecewiseScale, h1, h2, h3]

/-- Witness for C2 at the default `large` thresholds. -/
theorem claim_C2_piecewise_scale_witness :
    piecewiseScale 5 ⟨some 10, some 30, some 60⟩ = 0
    ∧ piecewiseScale 20 ⟨some 10, some 30, some 60⟩
        ≤ piecewiseScale 45 ⟨some 10, some 30, some 60⟩ :=
  ⟨(claim_C2_piecewise_scale ⟨some 10, some 30, some 60⟩ 5 0 0).1
      (by norm_num [thLow]),
   (claim_C2_piecewise_scale ⟨some 10, some 30, some 60⟩ 0 20 45).2.2.2.2
      (by norm_num)⟩

/-! ## Claim C3 -/

/-- The bin-scan loop returns the (defaulted) score of the first bin whose
`max` dominates the pain count. -/
theorem scanBins_eq_find (pain : ℚ) (bins : List Bin) :
    scanBins pain bins = (bins.find? (binMatches pain)).map (fun b => b.score.getD 0) := by
  induction bins with
  | nil => simp [scanBins]
  | cons b rest ih =>
    by_cases hb : binMatches pain b
    · simp [scanBins, hb, List.find?_cons_of_pos _ hb]
    · have hb' : binMatches pain b = false := by simpa using hb
      simp [scanBins, hb', List.find?_cons, ih]

/-- C3: `_score_desperate` uses bin mode exactly when a pain count is
supplied (even 0): it returns the score of the first configured bin whose
`max` is at least the count, falls back to the last configured bin's score
when no bin matches and the list is non-empty, and returns 0 on an empty
bin list; without a pain count it scores 7 plus 3 per configured token
occurring case-insensitively in the keyword, clamped to 25. -/
theorem claim_C3_score_desperate (keyword : String) (pain : ℚ) (cfg : DesperateCfg) :
    (∀ b, (cfg.bins.getD []).find? (binMatches pain) = some b →
        scoreDesperate keyword (some pain) cfg = some (b.score.getD 0))
    ∧ ((cfg.bins.getD []).find? (binMatches pain) = none →
        ∀ b, (cfg.bins.getD []).getLast? = some b →
        ∀ s, b.score = some s →
          scoreDesperate keyword (some pain) cfg = some s)
    ∧ (cfg.bins.getD [] = [] → scoreDesperate keyword (some pain) cfg = some 0)
    ∧ scoreDesperate keyword none cfg
        = some (min (7 + 3 * ((((cfg.heuristics_keywords.getD []).map lowerStr).filter
            (fun t => t ≠ "" && containsStr (lowerStr keyword) t)).length : ℚ)) 25) := by
  refine ⟨fun b hb => ?_, fun hn b hl s hs => ?_, fun he => ?_, ?_⟩
  · simp [scoreDesperate, scanBins_eq_find, hb]
  · simp [scoreDesperate, scanBins_eq_find, hn, hl, hs]
  · simp [scoreDesperate, he, scanBins]
  · simp [scoreDesperate, heuristicScore_eq_count]

/-- Witness for C3: default bins at pain 0 (first bin), pain 2·10⁹ (count
exceeding every `max`, last-bin fallback), and an empty bin list. -/
theorem claim_C3_score_desperate_witness :
    scoreDesperate "kw" (some 0) ⟨some defaultBins, some defaultHeuristics⟩ = some 4
    ∧ scoreDesperate "kw" (some 2000000000) ⟨some defaultBins, some defaultHeuristics⟩
        = some 25
    ∧ scoreDesperate "kw" (some 5) ⟨some [], none⟩ = some 0 :=
  ⟨by
    have h := (claim_C3_score_desperate "kw" 0
      ⟨some defaultBins, some defaultHeuristics⟩).1 ⟨some 0, some 4⟩ (by decide)
    simpa using h,
   (claim_C3_score_desperate "kw" 2000000000
      ⟨some defaultBins, some defaultHeuristics⟩).2.1 (by decide)
      ⟨some 1000000000, some 25⟩ (by decide) 25 (by decide),
   (claim_C3_score_desperate "kw" 5 ⟨some [], none⟩).2.2.1 (by decide)⟩

/-! ## Claim C4 -/

/-- A defaulted-to-0 weight lookup is non-negative when all stored weights
are. -/
theorem lookupKeyD_nonneg (weights : List (String × ℚ)) (k : String)
    (hnn : ∀ p ∈ weights, 0 ≤ p.2) : 0 ≤ lookupKeyD weights k 0 := by
  induction weights with
  | nil => simp [lookupKeyD, lookupKey]
  | cons p rest ih =>
    by_cases hk : k = p.1
    · simpa [lookupKeyD, lookupKey, hk] using hnn p (by simp)
    · simpa [lookupKeyD, lookupKey, hk] using
        ih (fun q hq => hnn q (List.mem_cons_of_mem p hq))

/-- Summing the looked-up weights of distinct keys cannot exceed the sum of
all stored weights, for a non-negative dict (unique keys). -/
theorem sum_lookupKeyD_le (weights : List (String × ℚ)) (ks : List String)
    (hnn : ∀ p ∈ weights, 0 ≤ p.2) (hkeys : (weights.map Prod.fst).Nodup)
    (hks : ks.Nodup) :
    (ks.map (fun k => lookupKeyD weights k 0)).sum ≤ (weights.map (·.2)).sum := by
  induction weights generalizing ks with
  | nil =>
    refine le_of_eq (List.sum_eq_zero ?_)
    intro x hx
    obtain ⟨k, _, rfl⟩ := List.mem_map.mp hx
    simp [lookupKeyD, lookupKey]
  | cons p rest ih =>
    obtain ⟨k, v⟩ := p
    have hrestnn : ∀ q ∈ rest, 0 ≤ q.2 := fun q hq => hnn q (List.mem_cons_of_mem _ hq)
    have hkmem : k ∉ rest.map Prod.fst := (List.nodup_cons.mp hkeys).1
    have hrestkeys : (rest.map Prod.fst).Nodup := (List.nodup_cons.mp hkeys).2
    have hv : 0 ≤ v := hnn (k, v) (by simp)
    have hget : ∀ ki, ki ≠ k →
        lookupKeyD ((k, v) :: rest) ki 0 = lookupKeyD rest ki 0 := by
      intro ki hki
      simp [lookupKeyD, lookupKey, hki]
    by_cases hk : k ∈ ks
    · obtain ⟨as, bs, rfl⟩ := List.append_of_mem hk
      have has : as.Nodup := (List.nodup_append.mp hks).1
      have hcons : (k :: bs).Nodup := (List.nodup_append.mp hks).2.1
      have hdisj : as.Disjoint (k :: bs) := (List.nodup_append.mp hks).2.2
      have hkas : k ∉ as := fun h => hdisj h (by simp)
      have hkbs : k ∉ bs := (List.nodup_cons.mp hcons).1
      have hbs : bs.Nodup := (List.nodup_cons.mp hcons).2
      have habs : (as ++ bs).Nodup :=
        List.nodup_append.mpr ⟨has, hbs, fun a ha hb => hdisj ha (by simp [hb])⟩
      have hmapas : as.map (fun ki => lookupKeyD ((k, v) :: rest) ki 0)
          = as.map (fun ki => lookupKeyD rest ki 0) :=
        List.map_congr_left (fun ki hki => hget ki (fun h => hkas (h ▸ hki)))
      have hmapbs : bs.map (fun ki => lookupKeyD ((k, v) :: rest) ki 0)
          = bs.map (fun ki => lookupKeyD rest ki 0) :=
        List.map_congr_left (fun ki hki => hget ki (fun h => hkbs (h ▸ hki)))
      have hself : lookupKeyD ((k, v) :: rest) k 0 = v := by
        simp [lookupKeyD, lookupKey]
      have hIH := ih (as ++ bs) hrestnn hrestkeys habs
      simp only [List.map_append, List.sum_append, List.map_cons, List.sum_cons,
        hmapas, hmapbs, hself] at *
      linarith
    · have hmap : ks.map (fun ki => lookupKeyD ((k, v) :: rest) ki 0)
          = ks.map (fun ki => lookupKeyD rest ki 0) :=
        List.map_congr_left (fun ki hki => hget ki (fun h => hk (h ▸ hki)))
      have hIH := ih ks hrestnn hrestkeys hks
      simp only [List.map_cons, List.sum_cons, hmap]
      linarith

/-- Rounding `pyRound` maps a non-negative argument to a non-negative integer. -/
theorem pyRound_nonneg {q : ℚ} (hq : 0 ≤ q) : 0 ≤ pyRound q := by
  have hf : (0:ℤ) ≤ ⌊q⌋ := Int.floor_nonneg.mpr hq
  simp only [pyRound]
  split_ifs <;> omega

/-- Rounding `pyRound` never exceeds an integer bound of its argument. -/
theorem pyRound_le {q : ℚ} {n : ℤ} (hq : q ≤ (n:ℚ)) : pyRound q ≤ n := by
  have hf : ⌊q⌋ ≤ n := by
    calc ⌊q⌋ ≤ ⌊(n:ℚ)⌋ := Int.floor_le_floor hq
      _ = n := Int.floor_intCast n
  have hfq : (⌊q⌋ : ℚ) ≤ q := Int.floor_le q
  simp only [pyRound]
  split_ifs with h1 h2 h3
  · exact hf
  · have hlt : (⌊q⌋ : ℚ) ≤ (n:ℚ) - 1/2 := by linarith
    have : (⌊q⌋ : ℚ) < (n:ℚ) := by linarith
    have : ⌊q⌋ < n := by exact_mod_cast this
    omega
  · exact hf
  · have hr : (1:ℚ)/2 ≤ q - (⌊q⌋ : ℚ) := by linarith [not_lt.mp h1]
    have : (⌊q⌋ : ℚ) < (n:ℚ) := by linarith
    have : ⌊q⌋ < n := by exact_mod_cast this
    omega

/-- C4: the aggregated total is the weighted sum of the four axis scores,
normalized by `totalWeight` (the weight sum, 1 when that sum is zero),
scaled by 4, and rounded half-to-even; for axis scores in `[0, 25]` and a
non-negative weight dict it lies in `[0, 100]`; with the default weights,
`(25,25,25,25) ↦ 100` and `(0,0,0,0) ↦ 0`. -/
theorem claim_C4_weighted_aggregation (l e w d : ℚ) (weights : List (String × ℚ))
    (hl0 : 0 ≤ l) (hl25 : l ≤ 25) (he0 : 0 ≤ e) (he25 : e ≤ 25)
    (hw0 : 0 ≤ w) (hw25 : w ≤ 25) (hd0 : 0 ≤ d) (hd25 : d ≤ 25)
    (hnn : ∀ p ∈ weights, 0 ≤ p.2)
    (hkeys : (weights.map Prod.fst).Nodup) :
    aggregateTotal l e w d weights
      = pyRound ((l * lookupKeyD weights "large" 0 + e * lookupKeyD weights "early" 0
          + w * lookupKeyD weights "who_pays" 0 + d * lookupKeyD weights "desperate" 0)
          / totalWeight weights * 4)
    ∧ 0 ≤ aggregateTotal l e w d weights
    ∧ aggregateTotal l e w d weights ≤ 100
    ∧ aggregateTotal 25 25 25 25 defaultWeights = 100
    ∧ aggregateTotal 0 0 0 0 defaultWeights = 0 := by
  set g1 := lookupKeyD weights "large" 0 with hg1
  set g2 := lookupKeyD weights "early" 0 with hg2
  set g3 := lookupKeyD weights "who_pays" 0 with hg3
  set g4 := lookupKeyD weights "desperate" 0 with hg4
  have hg1n : 0 ≤ g1 := lookupKeyD_nonneg weights _ hnn
  have hg2n : 0 ≤ g2 := lookupKeyD_nonneg weights _ hnn
  have hg3n : 0 ≤ g3 := lookupKeyD_nonneg weights _ hnn
  have hg4n : 0 ≤ g4 := lookupKeyD_nonneg weights _ hnn
  have hsum : g1 + g2 + g3 + g4 ≤ (weights.map (·.2)).sum := by
    have h := sum_lookupKeyD_le weights ["large", "early", "who_pays", "desperate"]
      hnn hkeys (by decide)
    simpa [hg1, hg2, hg3, hg4, add_assoc] using h
  have hsnn : 0 ≤ (weights.map (·.2)).sum :=
    List.sum_nonneg (fun x hx => by
      obtain ⟨p, hp, rfl⟩ := List.mem_map.mp hx
      exact hnn p hp)
  have hws0 : 0 ≤ l * g1 + e * g2 + w * g3 + d * g4 := by
    have := mul_nonneg hl0 hg1n
    have := mul_nonneg he0 hg2n
    have := mul_nonneg hw0 hg3n
    have := mul_nonneg hd0 hg4n
    linarith
  have hws25 : l * g1 + e * g2 + w * g3 + d * g4 ≤ 25 * (g1 + g2 + g3 + g4) := by
    have h1 : l * g1 ≤ 25 * g1 := mul_le_mul_of_nonneg_right hl25 hg1n
    have h2 : e * g2 ≤ 25 * g2 := mul_le_mul_of_nonneg_right he25 hg2n
    have h3 : w * g3 ≤ 25 * g3 := mul_le_mul_of_nonneg_right hw25 hg3n
    have h4 : d * g4 ≤ 25 * g4 := mul_le_mul_of_nonneg_right hd25 hg4n
    linarith
  have hnorm : 0 ≤ (l * g1 + e * g2 + w * g3 + d * g4) / totalWeight weights * 4
      ∧ (l * g1 + e * g2 + w * g3 + d * g4) / totalWeight weights * 4 ≤ 100 := by
    by_cases hz : (weights.map (·.2)).sum = 0
    · have hzero : l * g1 + e * g2 + w * g3 + d * g4 = 0 := by
        have : g1 + g2 + g3 + g4 ≤ 0 := hz ▸ hsum
        have hg1z : g1 = 0 := by linarith
        have hg2z : g2 = 0 := by linarith
        have hg3z : g3 = 0 := by linarith
        have hg4z : g4 = 0 := by linarith
        simp [hg1z, hg2z, hg3z, hg4z]
      rw [hzero]
      norm_num
    · have htw : totalWeight weights = (weights.map (·.2)).sum := by
        simp [totalWeight, hz]
      have hpos : 0 < totalWeight weights := by
        rw [htw]
        exact lt_of_le_of_ne hsnn (Ne.symm hz)
      constructor
      · have := div_nonneg hws0 hpos.le
        linarith
      · have hdiv : (l * g1 + e * g2 + w * g3 + d * g4) / totalWeight weights ≤ 25 := by
          rw [div_le_iff₀ hpos, htw]
          calc l * g1 + e * g2 + w * g3 + d * g4
              ≤ 25 * (g1 + g2 + g3 + g4) := hws25
            _ ≤ 25 * (weights.map (·.2)).sum := by linarith
        linarith
  refine ⟨rfl, ?_, ?_, ?_, ?_⟩
  · exact pyRound_nonneg hnorm.1
  · exact pyRound_le (by exact_mod_cast hnorm.2)
  · norm_num [aggregateTotal, lookupKeyD, lookupKey, totalWeight, defaultWeights, pyRound]
  · norm_num [aggregateTotal, lookupKeyD, lookupKey, totalWeight, defaultWeights, pyRound]

/-- Witness for C4 at the default weights with all-maximal axis scores. -/
theorem claim_C4_weighted_aggregation_witness :
    0 ≤ aggregateTotal 25 25 25 25 defaultWeights
    ∧ aggregateTotal 25 25 25 25 defaultWeights ≤ 100 := by
  have h := claim_C4_weighted_aggregation 25 25 25 25 defaultWeights
    (by norm_num) (by norm_num) (by norm_num) (by norm_num)
    (by norm_num) (by norm_num) (by norm_num) (by norm_num)
    (by
      intro p hp
      fin_cases hp <;> norm_num [defaultWeights])
    (by decide)
  exact ⟨h.2.1, h.2.2.1⟩

/-! ## Config resolution model (`load_config`) -/

/-- A JSON/YAML value inside the `thresholds` section of a config document
(number, string, list, nested mapping, or null). -/
inductive JSub where
  | num (q : ℚ)
  | str (s : String)
  | arr (items : List JSub)
  | obj (entries : List (String × JSub))
  | null

/-- The source's `DEFAULT_CONFIG["thresholds"]` as the JSON-like dict `load_config`
merges into. -/
def defaultThresholdsDict : List (String × JSub) :=
  [ ("large", .obj [("low", .num 10), ("mid", .num 30), ("high", .num 60)]),
    ("early", .obj [("low", .num 0), ("mid", .num 40), ("high", .num 80)]),
    ("who_pays", .obj
      [ ("map", .obj [("student", .num 10), ("job_seeker", .num 15), ("creator", .num 18),
          ("freelancer", .num 20), ("SME", .num 23), ("enterprise", .num 25)]),
        ("unknown_default", .num 8)]),
    ("desperate", .obj
      [ ("bins", .arr
          [ .obj [("max", .num 0), ("score", .num 4)],
            .obj [("max", .num 3), ("score", .num 10)],
            .obj [("max", .num 10), ("score", .num 17)],
            .obj [("max", .num 30), ("score", .num 22)],
            .obj [("max", .num 1000000000), ("score", .num 25)]]),
        ("heuristics_keywords", .arr
          [.str "need", .str "urgent", .str "stuck", .str "broken", .str "fail"])]) ]

/-- A parsed override document whose top level is a mapping, with the two
sections the resolver reads: `loaded.get("weights", {})` (a mapping of axis
name to weight, per the spec's §4.1 input structure) and
`loaded.get("thresholds", {})` (a mapping of axis name to an arbitrary
value); `none` models an absent section. -/
structure OverrideDoc where
  weights : Option (List (String × ℚ))
  thresholds : Option (List (String × JSub))

/-- The configuration produced by `load_config`. -/
structure ConfigDict where
  weights : List (String × ℚ)
  thresholds : List (String × JSub)

/-- The value stored for one overridden thresholds axis: if the axis already
resolves to a mapping and the override value is itself a mapping, the
shallow merge `{**merged_thresholds[key], **value}`; otherwise the override
value wholesale. -/
def mergeAxisValue (acc : List (String × JSub)) (k : String) (v : JSub) : JSub :=
  match lookupKey acc k, v with
  | some (.obj base), .obj ov => .obj (pyDictUpdate base ov)
  | _, _ => v

/-- One iteration of the `for key, value in thresholds.items()` merge loop. -/
def mergeThresholdAxis (acc : List (String × JSub)) (p : String × JSub) :
    List (String × JSub) :=
  pyDictInsert acc p.1 (mergeAxisValue acc p.1 p.2)

/-- Lines 114-129 of `lewd_scoring.py`: start from (a deep copy of) the
defaults, `update` the weights with the override mapping, and merge the
thresholds override per axis key. -/
def mergeConfig (doc : OverrideDoc) : ConfigDict :=
  { weights := pyDictUpdate defaultWeights (doc.weights.getD [])
    thresholds := (doc.thresholds.getD []).foldl mergeThresholdAxis defaultThresholdsDict }

/-- What `yaml.safe_load(raw_text)` produced for a named, existing, parsed
config file, as the line `loaded = yaml.safe_load(raw_text) or {}` sees it:
a mapping document; a *falsy* non-mapping value (`None` from an empty
document, `[]`, `0`, `false`, `""`), which the `or {}` silently replaces
with the empty mapping; or a *truthy* non-mapping value (a non-empty list,
a non-empty string, a non-zero number), which survives the `or {}` and
fails the `isinstance(loaded, Mapping)` check. -/
inductive ParsedTop where
  | mapping (doc : OverrideDoc)
  | falsyNonMapping
  | truthyNonMapping

/-- The input situations `load_config(path)` distinguishes: no path named,
a named path that does not exist, a file whose content fails to parse, and a
successfully parsed document. -/
inductive ConfigSource where
  | noPath
  | missingFile
  | unparsable
  | loaded (v : ParsedTop)

/-- Translation of `load_config` (`lewd_scoring.py` lines 90-129, yaml
branch): defaults verbatim when no path is named; `LewdScoringError` when
the named file is missing, cannot be parsed, or parses to a truthy
non-mapping; a falsy non-mapping parse is normalized to `{}` by
`yaml.safe_load(raw_text) or {}` and proceeds through the merge like an
empty override; otherwise the merge of defaults with the override
document. -/
def loadConfig : ConfigSource → Except String ConfigDict
  | .noPath => .ok ⟨defaultWeights, defaultThresholdsDict⟩
  | .missingFile => .error "Config file not found"
  | .unparsable => .error "Config file is not valid JSON/YAML"
  | .loaded .falsyNonMapping => .ok (mergeConfig ⟨none, none⟩)
  | .loaded .truthyNonMapping => .error "Config file must contain a mapping at the top level"
  | .loaded (.mapping doc) => .ok (mergeConfig doc)

/-! ## Dict-merge lemmas -/

/-- Insertion `pyDictInsert` stores `v` at `k` and leaves every other key alone. -/
theorem lookupKey_pyDictInsert {α : Type} (l : List (String × α)) (k : String) (v : α)
    (k' : String) :
    lookupKey (pyDictInsert l k v) k' = if k' = k then some v else lookupKey l k' := by
  induction l with
  | nil => simp [pyDictInsert, lookupKey]
  | cons p rest ih =>
    obtain ⟨k0, v0⟩ := p
    by_cases hp : k0 = k
    · subst hp
      by_cases hk : k' = k0 <;> simp [pyDictInsert, lookupKey, hk]
    · by_cases hk' : k' = k0
      · have hne : k' ≠ k := fun h => hp (by rw [← h, hk'])
        simp [pyDictInsert, lookupKey, hp, hk', hne]
      · simp [pyDictInsert, lookupKey, hp, hk', ih]

/-- A key not named by the update keeps its base binding. -/
theorem lookupKey_pyDictUpdate_not_mem {α : Type} (base upd : List (String × α))
    (k : String) (hk : k ∉ upd.map Prod.fst) :
    lookupKey (pyDictUpdate base upd) k = lookupKey base k := by
  induction upd generalizing base with
  | nil => rfl
  | cons p rest ih =>
    have hk1 : k ≠ p.1 := fun h => hk (by simp [h])
    have hk2 : k ∉ rest.map Prod.fst := fun h => hk (by simp [h])
    calc lookupKey (pyDictUpdate (pyDictInsert base p.1 p.2) rest) k
        = lookupKey (pyDictInsert base p.1 p.2) k := ih _ hk2
      _ = lookupKey base k := by simp [lookupKey_pyDictInsert, hk1]

/-- An updated key (unique in the update, as in a Python dict) resolves to
its updated value. -/
theorem lookupKey_pyDictUpdate_mem {α : Type} (base upd : List (String × α))
    (k : String) (v : α) (hmem : (k, v) ∈ upd) (hnd : (upd.map Prod.fst).Nodup) :
    lookupKey (pyDictUpdate base upd) k = some v := by
  induction upd generalizing base with
  | nil => cases hmem
  | cons p rest ih =>
    rw [List.map_cons, List.nodup_cons] at hnd
    rcases List.mem_cons.mp hmem with heq | hrest
    · subst heq
      have hkmem : k ∉ rest.map Prod.fst := by simpa using hnd.1
      calc lookupKey (pyDictUpdate (pyDictInsert base k v) rest) k
          = lookupKey (pyDictInsert base k v) k :=
            lookupKey_pyDictUpdate_not_mem _ _ _ hkmem
        _ = some v := by simp [lookupKey_pyDictInsert]
    · exact ih _ hrest hnd.2

/-- A thresholds-merge iteration only touches its own key. -/
theorem lookupKey_mergeThresholdAxis_ne (acc : List (String × JSub))
    (p : String × JSub) (k : String) (hk : k ≠ p.1) :
    lookupKey (mergeThresholdAxis acc p) k = lookupKey acc k := by
  simp [mergeThresholdAxis, lookupKey_pyDictInsert, hk]

/-- A key not named by the thresholds override keeps its default binding. -/
theorem lookupKey_mergeThresholds_not_mem (init : List (String × JSub))
    (ovs : List (String × JSub)) (k : String) (hk : k ∉ ovs.map Prod.fst) :
    lookupKey (ovs.foldl mergeThresholdAxis init) k = lookupKey init k := by
  induction ovs generalizing init with
  | nil => rfl
  | cons p rest ih =>
    have hk1 : k ≠ p.1 := fun h => hk (by simp [h])
    have hk2 : k ∉ rest.map Prod.fst := fun h => hk (by simp [h])
    calc lookupKey (rest.foldl mergeThresholdAxis (mergeThresholdAxis init p)) k
        = lookupKey (mergeThresholdAxis init p) k := ih _ hk2
      _ = lookupKey init k := lookupKey_mergeThresholdAxis_ne _ _ _ hk1

/-- An overridden axis (unique key) resolves to its merged value, computed
against the initial dict. -/
theorem lookupKey_mergeThresholds_mem (init : List (String × JSub))
    (ovs : List (String × JSub)) (k : String) (v : JSub)
    (hmem : (k, v) ∈ ovs) (hnd : (ovs.map Prod.fst).Nodup) :
    lookupKey (ovs.foldl mergeThresholdAxis init) k = some (mergeAxisValue init k v) := by
  induction ovs generalizing init with
  | nil => cases hmem
  | cons p rest ih =>
    rw [List.map_cons, List.nodup_cons] at hnd
    rcases List.mem_cons.mp hmem with heq | hrest
    · subst heq
      have hkmem : k ∉ rest.map Prod.fst := by simpa using hnd.1
      calc lookupKey (rest.foldl mergeThresholdAxis (mergeThresholdAxis init (k, v))) k
          = lookupKey (mergeThresholdAxis init (k, v)) k :=
            lookupKey_mergeThresholds_not_mem _ _ _ hkmem
        _ = some (mergeAxisValue init k v) := by
            simp [mergeThresholdAxis, lookupKey_pyDictInsert]
    · have hkne : k ≠ p.1 := by
        intro h
        exact hnd.1 (h ▸ List.mem_map_of_mem Prod.fst hrest)
      have hlook : lookupKey (mergeThresholdAxis init p) k = lookupKey init k :=
        lookupKey_mergeThresholdAxis_ne _ _ _ hkne
      have hih := ih (mergeThresholdAxis init p) hrest hnd.2
      rw [List.foldl_cons, hih]
      simp [mergeAxisValue, hlook]

/-- A non-mapping override value is adopted wholesale by the axis merge. -/
theorem mergeAxisValue_not_obj (acc : List (String × JSub)) (k : String) {v : JSub}
    (h : ∀ ov, v ≠ JSub.obj ov) : mergeAxisValue acc k v = v := by
  simp only [mergeAxisValue]
  split
  · exact absurd rfl (h _)
  · rfl

/-! ## Claim C5 -/

/-- C5: resolving an override document (structured as in spec §4.1) never
removes a default key: weight overrides overwrite matching keys while
unspecified axes keep their default weight; thresholds overrides
shallow-merge into a default axis when the override value is a mapping, and
replace the axis wholesale otherwise (in particular for axes absent from the
defaults); every default weights key and thresholds axis is still present
afterwards, and the top-level `weights`/`thresholds` sections always exist
(they are fields of the result). -/
theorem claim_C5_config_merge (doc : OverrideDoc)
    (hw : ((doc.weights.getD []).map Prod.fst).Nodup)
    (ht : ((doc.thresholds.getD []).map Prod.fst).Nodup) :
    (∀ k v, (k, v) ∈ doc.weights.getD [] →
        lookupKey (mergeConfig doc).weights k = some v)
    ∧ (∀ k, k ∉ (doc.weights.getD []).map Prod.fst →
        lookupKey (mergeConfig doc).weights k = lookupKey defaultWeights k)
    ∧ (∀ k ov base, (k, JSub.obj ov) ∈ doc.thresholds.getD [] →
        lookupKey defaultThresholdsDict k = some (JSub.obj base) →
        lookupKey (mergeConfig doc).thresholds k = some (JSub.obj (pyDictUpdate base ov)))
    ∧ (∀ k v, (k, v) ∈ doc.thresholds.getD [] →
        lookupKey defaultThresholdsDict k = none →
        lookupKey (mergeConfig doc).thresholds k = some v)
    ∧ (∀ k v, (k, v) ∈ doc.thresholds.getD [] → (∀ ov, v ≠ JSub.obj ov) →
        lookupKey (mergeConfig doc).thresholds k = some v)
    ∧ (∀ k, (lookupKey defaultWeights k).isSome →
        (lookupKey (mergeConfig doc).weights k).isSome)
    ∧ (∀ k, (lookupKey defaultThresholdsDict k).isSome →
        (lookupKey (mergeConfig doc).thresholds k).isSome) := by
  refine ⟨fun k v hmem => ?_, fun k hk => ?_, fun k ov base hmem hbase => ?_,
    fun k v hmem habsent => ?_, fun k v hmem hnotobj => ?_, fun k hk => ?_, fun k hk => ?_⟩
  · exact lookupKey_pyDictUpdate_mem _ _ _ _ hmem hw
  · exact lookupKey_pyDictUpdate_not_mem _ _ _ hk
  · rw [show (mergeConfig doc).thresholds
        = (doc.thresholds.getD []).foldl mergeThresholdAxis defaultThresholdsDict from rfl,
      lookupKey_mergeThresholds_mem _ _ _ _ hmem ht]
    simp [mergeAxisValue, hbase]
  · rw [show (mergeConfig doc).thresholds
        = (doc.thresholds.getD []).foldl mergeThresholdAxis defaultThresholdsDict from rfl,
      lookupKey_mergeThresholds_mem _ _ _ _ hmem ht]
    simp [mergeAxisValue, habsent]
  · rw [show (mergeConfig doc).thresholds
        = (doc.thresholds.getD []).foldl mergeThresholdAxis defaultThresholdsDict from rfl,
      lookupKey_mergeThresholds_mem _ _ _ _ hmem ht]
    rw [mergeAxisValue_not_obj _ _ hnotobj]
  · by_cases hmem : k ∈ (doc.weights.getD []).map Prod.fst
    · obtain ⟨p, hp, hpk⟩ := List.mem_map.mp hmem
      have : lookupKey (mergeConfig doc).weights k = some p.2 :=
        lookupKey_pyDictUpdate_mem _ _ _ _ (by rw [← hpk]; exact hp) hw
      simp [this]
    · rw [show (mergeConfig doc).weights = pyDictUpdate defaultWeights (doc.weights.getD [])
          from rfl, lookupKey_pyDictUpdate_not_mem _ _ _ hmem]
      exact hk
  · by_cases hmem : k ∈ (doc.thresholds.getD []).map Prod.fst
    · obtain ⟨p, hp, hpk⟩ := List.mem_map.mp hmem
      have : lookupKey (mergeConfig doc).thresholds k = some (mergeAxisValue defaultThresholdsDict k p.2) :=
        lookupKey_mergeThresholds_mem _ _ _ _ (by rw [← hpk]; exact hp) ht
      simp [this]
    · rw [show (mergeConfig doc).thresholds
          = (doc.thresholds.getD []).foldl mergeThresholdAxis defaultThresholdsDict from rfl,
        lookupKey_mergeThresholds_not_mem _ _ _ hmem]
      exact hk

/-- Witness for C5: an override setting `early`'s weight, deep-overriding
`large.high`, and adding a brand-new axis. -/
theorem claim_C5_config_merge_witness :
    lookupKey (mergeConfig ⟨some [("early", 3/5)],
        some [("large", .obj [("high", .num 100)]), ("new_axis", .num 5)]⟩).weights "early"
      = some (3/5)
    ∧ lookupKey (mergeConfig ⟨some [("early", 3/5)],
        some [("large", .obj [("high", .num 100)]), ("new_axis", .num 5)]⟩).weights "large"
      = lookupKey defaultWeights "large"
    ∧ lookupKey (mergeConfig ⟨some [("early", 3/5)],
        some [("large", .obj [("high", .num 100)]), ("new_axis", .num 5)]⟩).thresholds "large"
      = some (.obj (pyDictUpdate [("low", .num 10), ("mid", .num 30), ("high", .num 60)]
          [("high", .num 100)]))
    ∧ lookupKey (mergeConfig ⟨some [("early", 3/5)],
        some [("large", .obj [("high", .num 100)]), ("new_axis", .num 5)]⟩).thresholds "new_axis"
      = some (.num 5) := by
  have h := claim_C5_config_merge
    ⟨some [("early", 3/5)], some [("large", .obj [("high", .num 100)]), ("new_axis", .num 5)]⟩
    (by decide) (by decide)
  exact ⟨h.1 "early" (3/5) (List.mem_cons_self _ _),
    h.2.1 "large" (by decide),
    h.2.2.1 "large" [("high", .num 100)] [("low", .num 10), ("mid", .num 30), ("high", .num 60)]
      (List.mem_cons_self _ _) rfl,
    h.2.2.2.1 "new_axis" (.num 5) (List.mem_cons_of_mem _ (List.mem_cons_self _ _)) rfl⟩

/-! ## Claim C7 -/

/-- Counterexample to C7 as stated: a named, existing, parseable config
file whose parsed top level is a *falsy* non-mapping — `[]`, `0`, `false`,
`null`, or an empty document — is silently normalized to `{}` by
`loaded = yaml.safe_load(raw_text) or {}` (line 104) and yields the merged
defaults with no error, although the parsed override document is not a
mapping at the top level; so `load_config` does not raise in one of the
cases the claim's iff requires it to. -/
theorem claim_C7_counterexample :
    loadConfig (.loaded .falsyNonMapping) = .ok ⟨defaultWeights, defaultThresholdsDict⟩
    ∧ (loadConfig (.loaded .falsyNonMapping)).isOk = true :=
  ⟨rfl, rfl⟩

/-- C7 (amended): `load_config` fails (with `LewdScoringError`) exactly
when a path is named but missing, the content cannot be parsed, or the
parsed document is a *truthy* non-mapping; a falsy non-mapping parse
(`[]`, `0`, `false`, `null`, empty file) is normalized to the empty mapping
by `or {}` and yields the built-in defaults without error; with no path it
returns the built-in defaults verbatim. -/
theorem claim_C7_load_config_errors (src : ConfigSource) :
    ((loadConfig src).isOk = false
      ↔ src = .missingFile ∨ src = .unparsable ∨ src = .loaded .truthyNonMapping)
    ∧ loadConfig .noPath = .ok ⟨defaultWeights, defaultThresholdsDict⟩
    ∧ loadConfig (.loaded .falsyNonMapping)
        = .ok ⟨defaultWeights, defaultThresholdsDict⟩ := by
  refine ⟨?_, rfl, rfl⟩
  cases src with
  | noPath => simp [loadConfig, Except.isOk, Except.toBool]
  | missingFile => simp [loadConfig, Except.isOk, Except.toBool]
  | unparsable => simp [loadConfig, Except.isOk, Except.toBool]
  | loaded v =>
    cases v with
    | mapping doc => simp [loadConfig, Except.isOk, Except.toBool]
    | falsyNonMapping => simp [loadConfig, Except.isOk, Except.toBool]
    | truthyNonMapping => simp [loadConfig, Except.isOk, Except.toBool]

/-! ## Enrichment loader (`load_optional_csv`) -/

/-- One CSV data row as `csv.DictReader` yields it: column name ↦ cell,
where a `none` cell models Python `None` (a row shorter than the header). -/
abbrev CsvRow := List (String × Option String)

/-- Python `record.get(col, dflt)` on a reader row. -/
def csvGet (r : CsvRow) (col : String) (dflt : Option String) : Option String :=
  (lookupKey r col).getD dflt

/-- A parsed CSV table: the header fieldnames and the data rows. -/
structure CsvTable where
  fieldnames : List String
  rows : List CsvRow

/-- The per-row value coercion of `load_optional_csv` combined with the
`value in (None, "")` skip check: a `None` cell or a blank-after-trim string
yields `none` (row skipped); otherwise try `int`, then `float`, then fall
back to the trimmed string. -/
def coerceCsvValue : Option String → Option EnrichVal
  | none => none
  | some s =>
    let t := stripStr s
    if t = "" then none
    else
      match parsePyInt t with
      | some n => some (.eInt n)
      | none =>
        match parsePyFloat t with
        | some q => some (.eFloat q)
        | none => some (.eStr t)

/-- One iteration of the `for record in reader` loop of `load_optional_csv`:
skip rows with a `None` or blank keyword and rows without a usable value,
otherwise bind the lower-cased trimmed keyword (overwriting an earlier
binding). -/
def processEnrichRow (vcol : String) (acc : List (String × EnrichVal)) (r : CsvRow) :
    List (String × EnrichVal) :=
  match csvGet r "keyword" (some "") with
  | none => acc
  | some rawK =>
    let keyword := stripStr rawK
    if keyword = "" then acc
    else
      match coerceCsvValue (csvGet r vcol none) with
      | none => acc
      | some v => pyDictInsert acc (lowerStr keyword) v

/-- The input situations `load_optional_csv(path)` distinguishes. -/
inductive CsvSource where
  | noPath
  | missingFile
  | table (t : CsvTable)

/-- Translation of `load_optional_csv` (`lewd_scoring.py` lines 149-195): `{}` when no path
is given, `LewdScoringError` on a missing file, a missing `keyword` column
or a column count other than two, otherwise the accumulated enrichment
dict. -/
def loadOptionalCsvTable (t : CsvTable) : Except String (List (String × EnrichVal)) :=
  if t.fieldnames = [] ∨ "keyword" ∉ t.fieldnames then
    .error "Optional CSV missing keyword column"
  else if (t.fieldnames.filter (fun c => c ≠ "keyword")).length ≠ 1 then
    .error "Optional CSV must have exactly one additional column besides keyword"
  else
    .ok (t.rows.foldl
      (processEnrichRow ((t.fieldnames.filter (fun c => c ≠ "keyword")).headD "")) [])

/-- Dispatcher for `load_optional_csv` over its three input situations. -/
def loadOptionalCsv : CsvSource → Except String (List (String × EnrichVal))
  | .noPath => .ok []
  | .missingFile => .error "Optional CSV not found"
  | .table t => loadOptionalCsvTable t

/-- Membership in a dict after `d[k] = v`. -/
theorem mem_pyDictInsert {α : Type} (m : List (String × α)) (k : String) (v : α)
    (p : String × α) (hp : p ∈ pyDictInsert m k v) : p = (k, v) ∨ p ∈ m := by
  induction m with
  | nil => simpa [pyDictInsert] using hp
  | cons q rest ih =>
    by_cases hq : q.1 = k
    · rcases List.mem_cons.mp (by simpa [pyDictInsert, hq] using hp) with h | h
      · exact Or.inl h
      · exact Or.inr (List.mem_cons_of_mem _ h)
    · rcases List.mem_cons.mp (by simpa [pyDictInsert, hq] using hp) with h | h
      · exact Or.inr (h ▸ List.mem_cons_self _ _)
      · rcases ih h with h' | h'
        · exact Or.inl h'
        · exact Or.inr (List.mem_cons_of_mem _ h')

/-- A non-empty string stays non-empty under lowering. -/
theorem lowerStr_ne_empty {s : String} (hs : s ≠ "") : lowerStr s ≠ "" := by
  intro h
  apply hs
  have hdata : s.data.map Char.toLower = [] := congrArg String.data h
  have : s.data = [] := by
    cases hd : s.data with
    | nil => rfl
    | cons c cs => rw [hd] at hdata; cases hdata
  cases s
  simp_all

/-- A coerced CSV value is never the blank string. -/
theorem coerceCsvValue_ne_blank (x : Option String) (v : EnrichVal)
    (h : coerceCsvValue x = some v) : v ≠ .eStr "" := by
  match x with
  | none => cases h
  | some s =>
    by_cases ht : stripStr s = ""
    · simp [coerceCsvValue, ht] at h
    · simp only [coerceCsvValue, if_neg ht] at h
      rcases hint : parsePyInt (stripStr s) with _ | n
      · rcases hfl : parsePyFloat (stripStr s) with _ | q
        · rw [hint, hfl] at h
          cases h
          simpa using ht
        · rw [hint, hfl] at h
          cases h
          simp
      · rw [hint] at h
        cases h
        simp

/-- The invariants of the enrichment accumulator: keys are non-empty,
lower-cased trimmed keywords; values are never the blank string. -/
def enrichInv (m : List (String × EnrichVal)) : Prop :=
  ∀ p ∈ m, p.1 ≠ "" ∧ (∃ raw, p.1 = lowerStr (stripStr raw)) ∧ p.2 ≠ .eStr ""

/-- The row-processing step preserves the accumulator invariants. -/
theorem processEnrichRow_inv (vcol : String) (acc : List (String × EnrichVal))
    (r : CsvRow) (hacc : enrichInv acc) : enrichInv (processEnrichRow vcol acc r) := by
  unfold processEnrichRow
  rcases hk : csvGet r "keyword" (some "") with _ | rawK
  · exact hacc
  · by_cases hkb : stripStr rawK = ""
    · simpa [hkb] using hacc
    · simp only [if_neg hkb]
      rcases hv : coerceCsvValue (csvGet r vcol none) with _ | v
      · exact hacc
      · intro p hp
        rcases mem_pyDictInsert _ _ _ _ hp with h | h
        · subst h
          exact ⟨lowerStr_ne_empty hkb, ⟨rawK, rfl⟩, coerceCsvValue_ne_blank _ _ hv⟩
        · exact hacc p h

/-! ## Claim C8 -/

/-- C8: `load_optional_csv` fails exactly when the header lacks a `keyword`
column or does not have exactly one other column; on success every entry has
a non-empty lower-cased trimmed keyword key and a non-blank value; a textual
value is coerced int-then-float-then-trimmed-string; appending a row to the
table re-processes only that row (no error); and a dict insert overwrites
exactly its own key (later duplicate keywords overwrite earlier ones). -/
theorem claim_C8_load_optional_csv (t : CsvTable) (s : String) :
    ((loadOptionalCsv (.table t)).isOk = false
      ↔ (t.fieldnames = [] ∨ "keyword" ∉ t.fieldnames
          ∨ (t.fieldnames.filter (fun c => c ≠ "keyword")).length ≠ 1))
    ∧ (∀ m, loadOptionalCsv (.table t) = .ok m → enrichInv m)
    ∧ (stripStr s ≠ "" →
        coerceCsvValue (some s) = some (
          match parsePyInt (stripStr s) with
          | some n => .eInt n
          | none =>
            match parsePyFloat (stripStr s) with
            | some q => .eFloat q
            | none => .eStr (stripStr s)))
    ∧ (∀ m r, loadOptionalCsv (.table t) = .ok m →
        loadOptionalCsv (.table ⟨t.fieldnames, t.rows ++ [r]⟩)
          = .ok (processEnrichRow
              ((t.fieldnames.filter (fun c => c ≠ "keyword")).headD "") m r))
    ∧ (∀ (m : List (String × EnrichVal)) k v k',
        lookupKey (pyDictInsert m k v) k'
          = if k' = k then some v else lookupKey m k') := by
  refine ⟨?_, fun m hm => ?_, fun hs => ?_, fun m r hm => ?_,
    fun m k v k' => lookupKey_pyDictInsert m k v k'⟩
  · show (loadOptionalCsvTable t).isOk = false ↔ _
    unfold loadOptionalCsvTable
    by_cases h1 : t.fieldnames = [] ∨ "keyword" ∉ t.fieldnames
    · rw [if_pos h1]
      simp only [Except.isOk, Except.toBool]
      refine ⟨fun _ => ?_, fun _ => trivial⟩
      rcases h1 with h | h
      · exact Or.inl h
      · exact Or.inr (Or.inl h)
    · rw [if_neg h1]
      by_cases h2 : (t.fieldnames.filter (fun c => c ≠ "keyword")).length ≠ 1
      · rw [if_pos h2]
        simp only [Except.isOk, Except.toBool]
        exact ⟨fun _ => Or.inr (Or.inr h2), fun _ => trivial⟩
      · rw [if_neg h2]
        simp only [Except.isOk, Except.toBool]
        refine ⟨fun h => Bool.noConfusion h, fun hcond => ?_⟩
        exfalso
        rcases hcond with h | h | h
        · exact h1 (Or.inl h)
        · exact h1 (Or.inr h)
        · exact h2 h
  · replace hm : loadOptionalCsvTable t = .ok m := hm
    unfold loadOptionalCsvTable at hm
    by_cases h1 : t.fieldnames = [] ∨ "keyword" ∉ t.fieldnames
    · rw [if_pos h1] at hm
      cases hm
    · rw [if_neg h1] at hm
      by_cases h2 : (t.fieldnames.filter (fun c => c ≠ "keyword")).length ≠ 1
      · rw [if_pos h2] at hm
        cases hm
      · rw [if_neg h2] at hm
        have hm' := Except.ok.inj hm
        subst hm'
        have hfold : ∀ (rows : List CsvRow) (acc : List (String × EnrichVal)),
            enrichInv acc →
            enrichInv (rows.foldl (processEnrichRow
              ((t.fieldnames.filter (fun c => c ≠ "keyword")).headD "")) acc) := by
          intro rows
          induction rows with
          | nil => intro acc hacc; exact hacc
          | cons r rest ih =>
            intro acc hacc
            exact ih _ (processEnrichRow_inv _ _ _ hacc)
        exact hfold t.rows [] (fun p hp => absurd hp (List.not_mem_nil p))
  · simp only [coerceCsvValue, if_neg hs]
    rcases hint : parsePyInt (stripStr s) with _ | n <;>
      rcases hfl : parsePyFloat (stripStr s) with _ | q <;>
      simp [hint, hfl]
  · replace hm : loadOptionalCsvTable t = .ok m := hm
    show loadOptionalCsvTable ⟨t.fieldnames, t.rows ++ [r]⟩ = _
    unfold loadOptionalCsvTable at hm ⊢
    by_cases h1 : t.fieldnames = [] ∨ "keyword" ∉ t.fieldnames
    · rw [if_pos h1] at hm
      cases hm
    · rw [if_neg h1] at hm
      by_cases h2 : (t.fieldnames.filter (fun c => c ≠ "keyword")).length ≠ 1
      · rw [if_pos h2] at hm
        cases hm
      · rw [if_neg h2] at hm
        have hm' := Except.ok.inj hm
        rw [if_neg h1, if_neg h2, List.foldl_append, hm']
        rfl

/-- Witness for C8: a three-row pain table keeps only the usable row, with
key `"ai tutor"` and integer value 12. -/
theorem claim_C8_load_optional_csv_witness :
    loadOptionalCsv (.table ⟨["keyword", "pain_mentions"],
      [ [("keyword", some "AI tutor"), ("pain_mentions", some "12")],
        [("keyword", some " "), ("pain_mentions", some "3")],
        [("keyword", some "Broken sink"), ("pain_mentions", some "")] ]⟩)
      = .ok [("ai tutor", .eInt 12)]
    ∧ ("ai tutor" : String) ≠ ""
    ∧ (∃ raw, ("ai tutor" : String) = lowerStr (stripStr raw))
    ∧ (EnrichVal.eInt 12) ≠ .eStr ""
    ∧ coerceCsvValue (some " enterprise ") = some (.eStr "enterprise") := by
  have hload : loadOptionalCsv (.table ⟨["keyword", "pain_mentions"],
      [ [("keyword", some "AI tutor"), ("pain_mentions", some "12")],
        [("keyword", some " "), ("pain_mentions", some "3")],
        [("keyword", some "Broken sink"), ("pain_mentions", some "")] ]⟩)
      = .ok [("ai tutor", .eInt 12)] := by rfl
  have hinv := (claim_C8_load_optional_csv ⟨["keyword", "pain_mentions"],
      [ [("keyword", some "AI tutor"), ("pain_mentions", some "12")],
        [("keyword", some " "), ("pain_mentions", some "3")],
        [("keyword", some "Broken sink"), ("pain_mentions", some "")] ]⟩
      " enterprise ").2.1 [("ai tutor", .eInt 12)] hload ("ai tutor", .eInt 12)
      (List.mem_cons_self _ _)
  have hco := (claim_C8_load_optional_csv ⟨["keyword", "pain_mentions"],
      [ [("keyword", some "AI tutor"), ("pain_mentions", some "12")],
        [("keyword", some " "), ("pain_mentions", some "3")],
        [("keyword", some "Broken sink"), ("pain_mentions", some "")] ]⟩
      " enterprise ").2.2.1 (by decide)
  exact ⟨hload, hinv.1, hinv.2.1, hinv.2.2,
    by rw [hco]; rfl⟩

/-! ## Claim C6 -/

/-- Counterexample to C6 as stated: a record whose `avg_volume` is the
non-blank, non-numeric string `"abc"` makes `score_row` raise a
`ValueError` (modelled as `none`) instead of scoring the value as zero. -/
theorem claim_C6_counterexample :
    scoreRow { keyword := some (.vStr "kw"), avg_volume := some (.vStr "abc"),
               growth_pct := some (.vInt 1), buyer := none }
      defaultConfig [] [] = none := by decide

/-- C6 (amended): a missing, `None`, empty-string or otherwise falsy
`avg_volume`/`growth_pct` cell is treated as zero rather than raising, but a
truthy string that fails `float()` raises, aborting `score_row` for that
record: the coercion fails exactly on a non-empty string that does not parse
as a number. -/
theorem claim_C6_numeric_coercion (cell : Option PyVal) (row : Row) (cfg : Config)
    (painMap buyerMap : List (String × EnrichVal))
    (hfail : coerceNumericField row.avg_volume = none
      ∨ coerceNumericField row.growth_pct = none) :
    (coerceNumericField cell = none
      ↔ ∃ s, cell = some (.vStr s) ∧ s ≠ "" ∧ parsePyFloat s = none)
    ∧ coerceNumericField none = some 0
    ∧ coerceNumericField (some .vNone) = some 0
    ∧ coerceNumericField (some (.vStr "")) = some 0
    ∧ scoreRow row cfg painMap buyerMap = none := by
  refine ⟨?_, by decide, by decide, by decide, ?_⟩
  · constructor
    · intro h
      match cell with
      | none => simp [coerceNumericField, pyTruthy, pyFloatVal] at h
      | some .vNone => simp [coerceNumericField, pyTruthy, pyFloatVal] at h
      | some (.vInt n) =>
        by_cases hn : n = 0 <;> simp [coerceNumericField, pyTruthy, pyFloatVal, hn] at h
      | some (.vFloat q) =>
        by_cases hq : q = 0 <;> simp [coerceNumericField, pyTruthy, pyFloatVal, hq] at h
      | some (.vStr s) =>
        by_cases hs : s = ""
        · simp [coerceNumericField, pyTruthy, pyFloatVal, hs] at h
        · exact ⟨s, rfl, hs, by simpa [coerceNumericField, pyTruthy, pyFloatVal, hs] using h⟩
    · rintro ⟨s, rfl, hs, hp⟩
      simp [coerceNumericField, pyTruthy, pyFloatVal, hs, hp]
  · rcases hfail with h | h
    · simp [scoreRow, h]
    · rcases havg : coerceNumericField row.avg_volume with _ | a
      · simp [scoreRow, havg]
      · simp [scoreRow, havg, h]

/-- Witness for C6 (amended) at a record whose `avg_volume` is the
unparsable string `"not a number"`. -/
theorem claim_C6_numeric_coercion_witness :
    scoreRow { keyword := some (.vStr "kw"), avg_volume := some (.vStr "not a number"),
               growth_pct := some (.vInt 7), buyer := none }
      defaultConfig [] [] = none :=
  (claim_C6_numeric_coercion (some (.vStr "not a number"))
    { keyword := some (.vStr "kw"), avg_volume := some (.vStr "not a number"),
      growth_pct := some (.vInt 7), buyer := none }
    defaultConfig [] [] (Or.inl (by decide))).2.2.2.2

/-! ## Claim C10 -/

/-- C10: an unparsable (but present and non-blank) pain enrichment value is
silently treated as absent — the pain count resolves to `none`, and scoring
proceeds exactly as it would with no pain enrichment at all (heuristic mode,
no exception). -/
theorem claim_C10_unparsable_pain (row : Row) (cfg : Config)
    (painMap buyerMap : List (String × EnrichVal)) (v : EnrichVal)
    (hlook : lookupKey painMap (lowerStr (rowKeyword row)) = some v)
    (hblank : v ≠ .eStr "")
    (hparse : enrichToFloat v = none) :
    resolvePain (rowKeyword row) painMap = none
    ∧ scoreRow row cfg painMap buyerMap = scoreRow row cfg [] buyerMap := by
  have hpm : resolvePain (rowKeyword row) painMap = none := by
    by_cases hkw : rowKeyword row = ""
    · simp [resolvePain, hkw]
    · simp [resolvePain, hkw, hlook, hblank, hparse]
  have hempty : resolvePain (rowKeyword row) [] = none := by
    by_cases hkw : rowKeyword row = "" <;> simp [resolvePain, lookupKey, hkw]
  refine ⟨hpm, ?_⟩
  simp only [scoreRow, hpm, hempty]

/-- Witness for C10: pain enrichment `"lots"` for `"ai therapy"` is ignored
and the record scores as if unenriched. -/
theorem claim_C10_unparsable_pain_witness :
    resolvePain (rowKeyword rowAiTherapy) [("ai therapy", .eStr "lots")] = none
    ∧ scoreRow rowAiTherapy defaultConfig [("ai therapy", .eStr "lots")] []
        = scoreRow rowAiTherapy defaultConfig [] [] :=
  claim_C10_unparsable_pain rowAiTherapy defaultConfig
    [("ai therapy", .eStr "lots")] [] (.eStr "lots")
    (by decide) (by decide) (by decide)

/-! ## Claim C9 -/

/-- Translation of `sorted(scored, key=lambda r: r["lewd_total_0_100"], reverse=True)`:
Python's stable descending sort by an integer key. -/
def pySortDesc {α : Type} (key : α → ℤ) (l : List α) : List α :=
  l.mergeSort (fun a b => key b ≤ key a)

/-- Lines 369-371 of `lewd_scoring.py`:
`top_n = max(1, int(top)) if scored else 0` and
`ranked = sorted(scored, key=..., reverse=True)[:top_n]` (no preview at all
for an empty batch). -/
def rankPreview {α : Type} (key : α → ℤ) (scored : List α) (top : ℤ) : List α :=
  let top_n : ℤ := if scored.isEmpty then 0 else max 1 top
  (pySortDesc key scored).take top_n.toNat

/-- The comparison used by the descending sort is transitive. -/
theorem sortDescLe_trans {α : Type} (key : α → ℤ) :
    ∀ a b c : α, (decide (key b ≤ key a)) = true → (decide (key c ≤ key b)) = true →
      (decide (key c ≤ key a)) = true := by
  intro a b c hab hbc
  simp only [decide_eq_true_eq] at *
  omega

/-- The comparison used by the descending sort is total. -/
theorem sortDescLe_total {α : Type} (key : α → ℤ) :
    ∀ a b : α, ((decide (key b ≤ key a)) || (decide (key a ≤ key b))) = true := by
  intro a b
  simp only [Bool.or_eq_true, decide_eq_true_eq]
  omega

/-- C9: the preview ranking is the stable descending sort by total,
truncated to the clamped top-N — the output is a permutation prefix of the
sorted batch, is sorted non-increasingly by key, keeps equal-key records in
their original relative order, has length `min (max 1 N) batchSize` for a
non-empty batch, and is empty for an empty batch. -/
theorem claim_C9_ranking {α : Type} (key : α → ℤ) (l : List α) (top : ℤ) (a b : α) :
    (pySortDesc key l).Perm l
    ∧ List.Pairwise (fun x y => key y ≤ key x) (pySortDesc key l)
    ∧ ([a, b].Sublist l → key a = key b → [a, b].Sublist (pySortDesc key l))
    ∧ (rankPreview key l top).length
        = (if l.isEmpty then 0 else min (max 1 top).toNat l.length)
    ∧ List.Pairwise (fun x y => key y ≤ key x) (rankPreview key l top)
    ∧ (l = [] → rankPreview key l top = []) := by
  have hsorted : List.Pairwise (fun x y => key y ≤ key x) (pySortDesc key l) := by
    have h := @List.sorted_mergeSort α (fun x y : α => decide (key y ≤ key x))
      (sortDescLe_trans key) (sortDescLe_total key) l
    exact h.imp (fun hxy => by simpa using hxy)
  refine ⟨List.mergeSort_perm l _, hsorted, fun hsub hkey => ?_, ?_, ?_, fun hl => ?_⟩
  · exact List.sublist_mergeSort (sortDescLe_trans key) (sortDescLe_total key)
      (by simp [hkey]) hsub
  · by_cases he : l.isEmpty
    · simp [rankPreview, he]
    · simp [rankPreview, pySortDesc, he, List.length_take, List.length_mergeSort]
  · exact hsorted.sublist (List.take_sublist _ _)
  · subst hl
    simp [rankPreview, pySortDesc]

/-- Witness for C9: two records with equal totals stay in input order. -/
theorem claim_C9_ranking_witness :
    [((0, 5) : ℤ × ℤ), (1, 5)].Sublist (pySortDesc Prod.snd [((0, 5) : ℤ × ℤ), (1, 5)]) :=
  (claim_C9_ranking Prod.snd [((0, 5) : ℤ × ℤ), (1, 5)] 10 (0, 5) (1, 5)).2.2.1
    (by decide) rfl

end Cecilia
